import Mathlib

/-!
Verification development for the `pig.py` highlighting server.

The source is a small daemon: a ZMQ ROUTER/DEALER broker (`ServerTask.run`)
relays `(language, sourceText)` requests to a pool of REP workers
(`ServerWorker.run`); each worker resolves a pygments lexer for the language
(with built-in overrides for `gdb` and `toml` and a fallback to the `text`
lexer), renders the source text with an `HtmlFormatter(encoding='utf-8',
nowrap=True)`, and sends the result back.

The shallow embedding below translates:
  - the custom `TOMLLexer` rule table (source lines 18-53) together with the
    pygments `RegexLexer` first-match scanning discipline;
  - the lexer-resolution logic of `ServerWorker.run` (lines 137-147);
  - the reply construction and send of `ServerWorker.run` (lines 137-153),
    keeping the Python `bytes` / `str` distinction and the exceptions the
    runtime can raise at each step;
  - the startup sequence of `ServerTask.run` (lines 102-115);
  - a transition-system model of the broker relay (the relay itself is
    `zmq.proxy`, external to the source; its routing contract is modelled
    from the specification).
-/

/-! ## Token types and HTML formatting

Token categories used by the custom TOML grammar (pygments token types),
and the HTML rendering the `HtmlFormatter` collaborator produces for them.
-/

/-- Pygments token categories appearing in the custom TOML grammar, plus the
`Error` category the `RegexLexer` machinery emits on unmatched input. -/
inductive Tok where
  | text
  | commentSingle
  | string
  | keywordConstant
  | name
  | numberInteger
  | numberFloat
  | punctuation
  | operator
  | error
  deriving DecidableEq

/-- CSS class the pygments HTML formatter assigns to each token category. -/
def cssClass : Tok → String
  | Tok.text => ""
  | Tok.commentSingle => "c1"
  | Tok.string => "s"
  | Tok.keywordConstant => "kc"
  | Tok.name => "n"
  | Tok.numberInteger => "mi"
  | Tok.numberFloat => "mf"
  | Tok.punctuation => "p"
  | Tok.operator => "o"
  | Tok.error => "err"

/-- HTML escaping of one character, as pygments performs on token text:
the five characters amp, lt, gt, double quote and apostrophe become
entities, everything else passes through. -/
def escapeChar (c : Char) : List Char :=
  if c = '&' then "&amp;".data
  else if c = '<' then "&lt;".data
  else if c = '>' then "&gt;".data
  else if c = '"' then "&quot;".data
  else if c.toNat = 39 then "&#39;".data
  else [c]

/-- HTML escaping of a character list. -/
def htmlEscapeL (cs : List Char) : List Char :=
  (cs.map escapeChar).flatten

/-- HTML escaping of a string. -/
def htmlEscape (s : String) : String :=
  String.mk (htmlEscapeL s.data)

/-- Wrap escaped token text in a span carrying the token's CSS class. -/
def spanWrap (cls inner : String) : String :=
  "<span class=\"" ++ cls ++ "\">" ++ inner ++ "</span>"

/-- Modelled from the spec: the markup the external formatter collaborator
(`HtmlFormatter` with `nowrap=True`) produces for a token stream — each
token's text HTML-escaped, wrapped in a class-carrying span except for the
classless `Text` category. -/
def htmlFormat (toks : List (Tok × String)) : String :=
  String.join (toks.map (fun p =>
    if cssClass p.1 = "" then htmlEscape p.2
    else spanWrap (cssClass p.1) (htmlEscape p.2)))

/-! ## The custom TOML grammar (source lines 18-53)

Each regex of the `TOMLLexer` rule table becomes a matcher returning the
length of the (leftmost-greedy) match at the start of the input, or `none`.
The rules are tried in table order at each position, as pygments'
`RegexLexer` does.
-/

/-- ASCII whitespace, the `\s` class on this grammar's inputs. -/
def isWsChar (c : Char) : Bool :=
  c == ' ' || c == '\t' || c == '\n' || c == '\r' || c.toNat == 11 || c.toNat == 12

/-- Length of the longest prefix satisfying `p`. -/
def takeWhileLen (p : Char → Bool) : List Char → Nat
  | [] => 0
  | c :: cs => if p c then takeWhileLen p cs + 1 else 0

/-- Decimal digit. -/
def isDigitChar (c : Char) : Bool := '0' ≤ c && c ≤ '9'

/-- Length of the leading digit run. -/
def digitRun (cs : List Char) : Nat := takeWhileLen isDigitChar cs

/-- Rule `\s+`: one or more whitespace characters, greedy. -/
def matchWs (cs : List Char) : Option Nat :=
  let n := takeWhileLen isWsChar cs
  if n = 0 then none else some n

/-- Rule `#.*?$` (MULTILINE): a hash then lazily up to the next newline or
the end of input. -/
def matchComment : List Char → Option Nat
  | '#' :: rest => some (1 + takeWhileLen (fun c => !(c == '\n')) rest)
  | _ => none

/-- Body of the string rule: characters consumed by
`(backslash-backslash | backslash-quote | non-quote)*` scanned
leftmost-greedy, stopping at the closing unescaped quote; `none` when the
input ends before one. -/
def stringBodyLen : List Char → Option Nat
  | [] => none
  | '"' :: _ => some 0
  | '\\' :: '\\' :: rest => Option.map (fun n => n + 2) (stringBodyLen rest)
  | '\\' :: '"' :: rest => Option.map (fun n => n + 2) (stringBodyLen rest)
  | _ :: rest => Option.map (fun n => n + 1) (stringBodyLen rest)

/-- The double-quoted string rule of the TOML grammar. -/
def matchString : List Char → Option Nat
  | '"' :: rest => Option.map (fun n => n + 2) (stringBodyLen rest)
  | _ => none

/-- Does `$` (MULTILINE) match here: end of input or just before a newline. -/
def atEol : List Char → Bool
  | [] => true
  | '\n' :: _ => true
  | _ => false

/-- Rule `(true|false)$`. -/
def matchTrueFalse (cs : List Char) : Option Nat :=
  match cs with
  | 't' :: 'r' :: 'u' :: 'e' :: rest => if atEol rest then some 4 else none
  | 'f' :: 'a' :: 'l' :: 's' :: 'e' :: rest => if atEol rest then some 5 else none
  | _ => none

/-- First character of the identifier rule `[a-zA-Z_][a-zA-Z0-9_\-]*`. -/
def isNameStart (c : Char) : Bool :=
  ('a' ≤ c && c ≤ 'z') || ('A' ≤ c && c ≤ 'Z') || c == '_'

/-- Continuation character of the identifier rule. -/
def isNameCont (c : Char) : Bool :=
  isNameStart c || isDigitChar c || c == '-'

/-- The identifier rule, tagged `Name` in the grammar. -/
def matchName : List Char → Option Nat
  | [] => none
  | c :: rest => if isNameStart c then some (1 + takeWhileLen isNameCont rest) else none

/-- Consume exactly `n` digits. -/
def takeDigits : Nat → List Char → Option (List Char)
  | 0, cs => some cs
  | _ + 1, [] => none
  | n + 1, c :: cs => if isDigitChar c then takeDigits n cs else none

/-- Consume one expected character. -/
def expectChar (ch : Char) : List Char → Option (List Char)
  | [] => none
  | c :: cs => if c = ch then some cs else none

/-- The datetime rule `\d{4}-\d{2}-\d{2}T\d{2}:\d{2}:\d{2}Z` (20 chars). -/
def matchDatetime (cs : List Char) : Option Nat :=
  match (((((((((((takeDigits 4 cs).bind (expectChar '-')).bind (takeDigits 2)).bind
      (expectChar '-')).bind (takeDigits 2)).bind (expectChar 'T')).bind
      (takeDigits 2)).bind (expectChar ':')).bind (takeDigits 2)).bind
      (expectChar ':')).bind (takeDigits 2)).bind (expectChar 'Z') with
  | some _ => some 20
  | none => none

/-- The mantissa alternation `(\d+\.\d*|\d*\.\d+)` of the first float rule. -/
def matchFloatMantissa (cs : List Char) : Option Nat :=
  let d1 := digitRun cs
  if d1 = 0 then
    match cs with
    | '.' :: rest =>
      let d2 := digitRun rest
      if d2 = 0 then none else some (1 + d2)
    | _ => none
  else
    match cs.drop d1 with
    | '.' :: rest => some (d1 + 1 + digitRun rest)
    | _ => none

/-- The optional exponent `([eE][+-]?[0-9]+)?`: length matched, `0` when the
group does not participate. -/
def matchExp (cs : List Char) : Nat :=
  match cs with
  | [] => 0
  | c :: rest =>
    if c == 'e' || c == 'E' then
      match rest with
      | [] => 0
      | s :: rest2 =>
        if s == '+' || s == '-' then
          let d := digitRun rest2
          if d = 0 then 0 else 2 + d
        else
          let d := digitRun rest
          if d = 0 then 0 else 1 + d
    else 0

/-- Length of the optional trailing `j?`. -/
def matchJ (cs : List Char) : Nat :=
  match cs with
  | 'j' :: _ => 1
  | _ => 0

/-- First float rule `(\d+\.\d*|\d*\.\d+)([eE][+-]?[0-9]+)?j?`. -/
def matchFloat1 (cs : List Char) : Option Nat :=
  (matchFloatMantissa cs).map (fun n =>
    let e := matchExp (cs.drop n)
    n + e + matchJ (cs.drop (n + e)))

/-- Second float rule `\d+[eE][+-]?[0-9]+j?`. -/
def matchFloat2 (cs : List Char) : Option Nat :=
  let d := digitRun cs
  if d = 0 then none
  else
    let e := matchExp (cs.drop d)
    if e = 0 then none else some (d + e + matchJ (cs.drop (d + e)))

/-- Integer rule `\-?\d+`. -/
def matchInt (cs : List Char) : Option Nat :=
  match cs with
  | '-' :: rest =>
    let d := digitRun rest
    if d = 0 then none else some (1 + d)
  | _ =>
    let d := digitRun cs
    if d = 0 then none else some d

/-- The punctuation character class of the TOML grammar: the nine characters
square brackets, curly braces, colon, parentheses, comma and semicolon. -/
def isTomlPunct (c : Char) : Bool :=
  c == ']' || c == '(' || c == ')' || c == ',' || c == ';' || c == '[' ||
  c == ':' || c.toNat == 123 || c.toNat == 125

/-- The punctuation class rule. -/
def matchPunct : List Char → Option Nat
  | c :: _ => if isTomlPunct c then some 1 else none
  | [] => none

/-- Rule for a literal dot. -/
def matchDot : List Char → Option Nat
  | '.' :: _ => some 1
  | _ => none

/-- Rule for the equals sign, tagged `Operator`. -/
def matchEq : List Char → Option Nat
  | '=' :: _ => some 1
  | _ => none

/-- The `root` rule table of `TOMLLexer`, in source order. -/
def tomlRules : List ((List Char → Option Nat) × Tok) :=
  [ (matchWs, Tok.text),
    (matchComment, Tok.commentSingle),
    (matchString, Tok.string),
    (matchTrueFalse, Tok.keywordConstant),
    (matchName, Tok.name),
    (matchDatetime, Tok.numberInteger),
    (matchFloat1, Tok.numberFloat),
    (matchFloat2, Tok.numberFloat),
    (matchInt, Tok.numberInteger),
    (matchPunct, Tok.punctuation),
    (matchDot, Tok.punctuation),
    (matchEq, Tok.operator) ]

/-- First rule of the table matching at the current position. -/
def firstMatch : List ((List Char → Option Nat) × Tok) → List Char → Option (Nat × Tok)
  | [], _ => none
  | (m, t) :: rs, cs =>
    match m cs with
    | some n => some (n, t)
    | none => firstMatch rs cs

/-- The `RegexLexer` scanning loop on the TOML rule table: at each position
take the first matching rule; on no match emit `Text` for a newline and
`Error` for any other character, advancing one character. Fuel bounds the
recursion; every rule consumes at least one character. -/
def tomlLexGo : Nat → List Char → List (Tok × String)
  | 0, _ => []
  | _, [] => []
  | fuel + 1, c :: cs =>
    match firstMatch tomlRules (c :: cs) with
    | some (n, t) =>
      let k := max n 1
      (t, String.mk ((c :: cs).take k)) :: tomlLexGo fuel ((c :: cs).drop k)
    | none =>
      if c = '\n' then (Tok.text, "\n") :: tomlLexGo fuel cs
      else (Tok.error, String.mk [c]) :: tomlLexGo fuel cs

/-- Tokenize a string with the custom TOML grammar. -/
def tomlLex (code : String) : List (Tok × String) :=
  tomlLexGo code.data.length code.data

/-! ## Lexer input preprocessing

Pygments' `Lexer.get_tokens` strips leading and trailing newlines
(`stripnl`, on by default) and guarantees a trailing newline (`ensurenl`,
on by default) before scanning.
-/

/-- Strip leading and trailing newline characters. -/
def stripNl (s : String) : String :=
  String.mk (((s.data.dropWhile (fun c => c == '\n')).reverse.dropWhile
    (fun c => c == '\n')).reverse)

/-- Does the string end with a newline (the `text.endswith` test). -/
def endsWithNl (s : String) : Bool :=
  match s.data.getLast? with
  | some c => c == '\n'
  | none => false

/-- Guarantee a trailing newline. -/
def ensureNl (s : String) : String :=
  if endsWithNl s then s else s ++ "\n"

/-- Modelled from the spec: the input normalization the external tokenizer
applies before scanning. -/
def lexPreprocess (s : String) : String := ensureNl (stripNl s)

/-! ## Grammar resolution (source lines 137-147)

`ServerWorker.run` picks the lexer: the two built-in overrides are matched
literally against the language name; otherwise `get_lexer_by_name` queries
the pygments registry, and on `ClassNotFound` the handler falls back to
`get_lexer_by_name("text")`. The registry is external; it is abstracted as
a membership predicate on names.
-/

/-- A grammar handle: one of the two built-in override lexers, or a lexer
obtained from the external registry under a given name. -/
inductive Grammar where
  | gdbOverride
  | tomlOverride
  | registry (regName : String)
  deriving DecidableEq

/-- The external `get_lexer_by_name`: yields the registry's grammar for the
name, or nothing (the `ClassNotFound` outcome) when the registry has no
match. -/
def getLexerByName (registryHas : String → Bool) (nm : String) : Option Grammar :=
  if registryHas nm then some (Grammar.registry nm) else none

/-- The lexer-selection logic of `ServerWorker.run` lines 139-147: override
table first (exact, case-sensitive), then the registry, then the `text`
fallback inside the `ClassNotFound` handler. `none` is the (in practice
unreachable) case of even the fallback name missing from the registry. -/
def resolveLexer (registryHas : String → Bool) (lang : String) : Option Grammar :=
  if lang = "gdb" then some Grammar.gdbOverride
  else if lang = "toml" then some Grammar.tomlOverride
  else
    match getLexerByName registryHas lang with
    | some g => some g
    | none => getLexerByName registryHas "text"

/-! ## Worker state and reply construction (source lines 121-153) -/

/-- Construction arguments of the `HtmlFormatter` the worker owns. -/
structure HtmlFormatterCfg where
  encoding : String
  nowrap : Bool
  deriving DecidableEq

/-- Per-request-independent worker state: the formatter built in
`ServerWorker.__init__` (line 125). -/
structure ServerWorker where
  formatter : HtmlFormatterCfg
  deriving DecidableEq

/-- `ServerWorker.__init__`: the formatter is always
`HtmlFormatter(encoding='utf-8', nowrap=True)`. -/
def serverWorkerInit : ServerWorker := ⟨⟨"utf-8", true⟩⟩

/-- A Python value at the send site: the success path carries a `bytes`
payload (modelled by its UTF-8 text), the error path a `str`. -/
inductive RV where
  | bytes (text : String)
  | str (text : String)
  deriving DecidableEq

/-- Python exceptions the loop body can raise past the try blocks. -/
inductive PyExc where
  | unicodeDecodeError
  | typeError
  deriving DecidableEq

/-- The error string built on line 151 from a caught `ValueError`. -/
def pygmentsErrorMsg (detail : String) : String :=
  "Pygments Error: " ++ detail

/-- Detail text of the `ClassNotFound` raised if even the `text` fallback
were missing from the registry. -/
def noTextLexerMsg : String := "no lexer for alias given found"

/-- The value bound to `rv` when control reaches the send on line 153:
lines 137-151 of `ServerWorker.run`. The external `highlight` call is a
parameter; `Except.error` is its `ValueError` outcome, which the handler
turns into the `str` error payload. A successful render yields `bytes`
because the formatter was constructed with an encoding. -/
def rvAt (registryHas : String → Bool)
    (render : HtmlFormatterCfg → Grammar → String → Except String String)
    (w : ServerWorker) (lang code : String) : RV :=
  match resolveLexer registryHas lang with
  | none => RV.str (pygmentsErrorMsg noTextLexerMsg)
  | some lex =>
    match render w.formatter lex code with
    | Except.ok markup => RV.bytes markup
    | Except.error err => RV.str (pygmentsErrorMsg err)

/-- `socket.send(rv)` on line 153: pyzmq sends a `bytes` payload and raises
`TypeError` on a `str`. -/
def sendOnRep : RV → Except PyExc RV
  | RV.bytes t => Except.ok (RV.bytes t)
  | RV.str _ => Except.error PyExc.typeError

/-- One pass through lines 137-153 for an already-decoded request: the
reply actually sent, or the exception that escapes. -/
def handleDecoded (registryHas : String → Bool)
    (render : HtmlFormatterCfg → Grammar → String → Except String String)
    (w : ServerWorker) (lang code : String) : Except PyExc RV :=
  sendOnRep (rvAt registryHas render w lang code)

/-! ## UTF-8 decoding of the request frames (source lines 134-135)

`lang.decode("UTF-8")` and `code.decode("UTF-8")` run outside the try
blocks. The decoder below follows the standard validation Python applies:
continuation-byte checks, overlong-encoding rejection, surrogate and
out-of-range rejection.
-/

/-- UTF-8 decoding loop: `k` pending continuation bytes, `cp` the partial
code point, `mn` the smallest code point the current sequence is allowed to
produce (overlong check), `acc` the decoded characters in reverse. -/
def utf8Dec : List Nat → Nat → Nat → Nat → List Char → Option String
  | [], 0, _, _, acc => some (String.mk acc.reverse)
  | [], _ + 1, _, _, _ => none
  | b :: bs, 0, _, _, acc =>
    if b < 0x80 then utf8Dec bs 0 0 0 (Char.ofNat b :: acc)
    else if 0xC0 ≤ b && b < 0xE0 then utf8Dec bs 1 (b % 0x20) 0x80 acc
    else if 0xE0 ≤ b && b < 0xF0 then utf8Dec bs 2 (b % 0x10) 0x800 acc
    else if 0xF0 ≤ b && b < 0xF8 then utf8Dec bs 3 (b % 0x08) 0x10000 acc
    else none
  | b :: bs, k + 1, cp, mn, acc =>
    if 0x80 ≤ b && b < 0xC0 then
      let cp2 := cp * 64 + (b % 64)
      match k with
      | 0 =>
        if mn ≤ cp2 && !(0xD800 ≤ cp2 && cp2 ≤ 0xDFFF) && cp2 ≤ 0x10FFFF then
          utf8Dec bs 0 0 0 (Char.ofNat cp2 :: acc)
        else none
      | k2 + 1 => utf8Dec bs (k2 + 1) cp2 mn acc
    else none

/-- `bytes.decode("UTF-8")`: the decoded string, or `none` for the
`UnicodeDecodeError` outcome. -/
def decodeUtf8 (bs : List Nat) : Option String :=
  utf8Dec bs 0 0 0 []

/-- One iteration of the worker loop, lines 132-153, from the two received
frames (byte lists) to the reply sent or the exception that escapes the
loop body. The decodes happen before the try blocks, so their failure is
never caught. -/
def workerLoopBody (registryHas : String → Bool)
    (render : HtmlFormatterCfg → Grammar → String → Except String String)
    (w : ServerWorker) (langBytes codeBytes : List Nat) : Except PyExc RV :=
  match decodeUtf8 langBytes with
  | none => Except.error PyExc.unicodeDecodeError
  | some lang =>
    match decodeUtf8 codeBytes with
    | none => Except.error PyExc.unicodeDecodeError
    | some code => handleDecoded registryHas render w lang code

/-! ## Concrete model of the external renderer

`highlight(code, lex, formatter)` is external. For the grammars the claims
exercise it is modelled concretely: the custom TOML grammar tokenizes by the
embedded rule table; the generic plain-text grammar yields the whole
(preprocessed) text as one `Text` token. The GDB grammar and other registry
grammars are not exercised token-by-token by any claim and are abstracted to
the plain-text behaviour.
-/

/-- Markup the plain-text grammar produces on a source text: the whole
preprocessed text as one classless `Text` token. -/
def plainTextMarkup (code : String) : String :=
  htmlFormat [(Tok.text, lexPreprocess code)]

/-- Modelled from the spec: the external rendering collaborator (tokenizer
plus formatter). Never raises on the grammars modelled here. -/
def modelHighlight (_cfg : HtmlFormatterCfg) (g : Grammar) (code : String) :
    Except String String :=
  match g with
  | Grammar.tomlOverride => Except.ok (htmlFormat (tomlLex (lexPreprocess code)))
  | Grammar.gdbOverride => Except.ok (plainTextMarkup code)
  | Grammar.registry _ => Except.ok (plainTextMarkup code)

/-- A model renderer that raises `ValueError` with the given detail on every
input: the renderer-level failure the error-handling claims quantify over. -/
def renderFailing (detail : String) :
    HtmlFormatterCfg → Grammar → String → Except String String :=
  fun _ _ _ => Except.error detail

/-! ## Substring occurrence (executable, for the scenario claims) -/

/-- Does `pat` occur at the head of `hay`. -/
def beginsWithSeq : List Char → List Char → Bool
  | _, [] => true
  | [], _ :: _ => false
  | h :: hs, p :: ps => h == p && beginsWithSeq hs ps

/-- Does `pat` occur anywhere in the list. -/
def occursInL (pat : List Char) : List Char → Bool
  | [] => pat.isEmpty
  | c :: cs => beginsWithSeq (c :: cs) pat || occursInL pat cs

/-- Does `pat` occur as a substring of `s`. -/
def occursIn (pat s : String) : Bool := occursInL pat.data s.data

/-! ## Server startup (source lines 102-115) -/

/-- Observable actions of `ServerTask.run`, in program order. -/
inductive ServerEvent where
  | bindFrontend
  | bindBackend
  | spawnWorker (i : Nat)
  | startProxy
  deriving DecidableEq

/-- Is the event a worker spawn. -/
def isSpawn : ServerEvent → Bool
  | ServerEvent.spawnWorker _ => true
  | _ => false

/-- The action sequence of `ServerTask.run` for pool configuration `size`:
bind both sockets, start one `ServerWorker` per element of
`range(size + 1)`, then enter the `zmq.proxy` relay. -/
def serverTaskRun (size : Nat) : List ServerEvent :=
  [ServerEvent.bindFrontend, ServerEvent.bindBackend]
    ++ (List.range (size + 1)).map ServerEvent.spawnWorker
    ++ [ServerEvent.startProxy]

/-! ## Helper lemmas -/

/-- Resolution hits the `toml` override before consulting the registry. -/
theorem resolveLexer_toml (reg : String → Bool) :
    resolveLexer reg "toml" = some Grammar.tomlOverride := by
  simp [resolveLexer]

/-- Resolution hits the `gdb` override before consulting the registry. -/
theorem resolveLexer_gdb (reg : String → Bool) :
    resolveLexer reg "gdb" = some Grammar.gdbOverride := by
  simp [resolveLexer]

/-- Away from the two override names, resolution only ever returns registry
grammars. -/
theorem resolveLexer_registry_shape (reg : String → Bool) (lang : String)
    (h1 : lang ≠ "gdb") (h2 : lang ≠ "toml") :
    ∀ g, resolveLexer reg lang = some g → ∃ nm, g = Grammar.registry nm := by
  intro g h
  simp only [resolveLexer, getLexerByName, h1, h2, if_false, if_neg] at h
  by_cases h3 : reg lang = true
  · simp [h3] at h
    exact ⟨lang, h.symm⟩
  · simp only [Bool.not_eq_true] at h3
    by_cases h4 : reg "text" = true
    · simp [h3, h4] at h
      exact ⟨"text", h.symm⟩
    · simp only [Bool.not_eq_true] at h4
      simp [h3, h4] at h

/-- For a language unknown to the registry and distinct from both overrides,
resolution lands on the registry's `text` grammar. -/
theorem resolveLexer_unknown (reg : String → Bool) (lang : String)
    (h1 : lang ≠ "gdb") (h2 : lang ≠ "toml") (h3 : reg lang = false)
    (htext : reg "text" = true) :
    resolveLexer reg lang = some (Grammar.registry "text") := by
  simp [resolveLexer, getLexerByName, h1, h2, h3, htext]

/-- Escaping one character never yields the empty entity. -/
theorem escapeChar_ne_nil (c : Char) : escapeChar c ≠ [] := by
  unfold escapeChar
  split_ifs <;> simp

/-- Escaping a nonempty character list yields a nonempty list. -/
theorem htmlEscapeL_ne_nil (cs : List Char) (h : cs ≠ []) : htmlEscapeL cs ≠ [] := by
  cases cs with
  | nil => exact absurd rfl h
  | cons c rest =>
    simp only [htmlEscapeL, List.map_cons, List.flatten_cons]
    intro hc
    rcases List.append_eq_nil.mp hc with ⟨he, _⟩
    exact escapeChar_ne_nil c he

/-- A string with nonempty character data is not the empty string. -/
theorem ne_empty_of_data_ne_nil (s : String) (h : s.data ≠ []) : s ≠ "" := by
  intro e
  apply h
  rw [e]

/-- The lexer's input preprocessing never produces the empty string. -/
theorem lexPreprocess_ne_empty (s : String) : lexPreprocess s ≠ "" := by
  unfold lexPreprocess ensureNl
  by_cases h : endsWithNl (stripNl s) = true
  · rw [if_pos h]
    intro e
    rw [e] at h
    exact absurd h (by decide)
  · rw [if_neg h]
    apply ne_empty_of_data_ne_nil
    rw [String.data_append]
    simp

/-- The plain-text rendering of any source text is nonempty. -/
theorem plainTextMarkup_ne_empty (s : String) : plainTextMarkup s ≠ "" := by
  have hdata : (htmlEscape (lexPreprocess s)).data ≠ [] := by
    show htmlEscapeL (lexPreprocess s).data ≠ []
    apply htmlEscapeL_ne_nil
    intro hd
    exact lexPreprocess_ne_empty s (by
      have h2 : lexPreprocess s = String.mk (lexPreprocess s).data := rfl
      rw [h2, hd])
  have h1 : plainTextMarkup s = htmlEscape (lexPreprocess s) := rfl
  rw [h1]
  exact ne_empty_of_data_ne_nil _ hdata

/-! ## Claim theorems -/

/-- C2: the claim states that no failure while handling a request ever
terminates the worker's receive-render-reply loop. The code violates this:
the two `decode` calls on lines 134-135 run before the try blocks, so a
request whose language frame is not valid UTF-8 (here the single byte 255)
raises `UnicodeDecodeError` out of the loop body — the worker thread dies
and no reply is sent. (Independently, the error path assigns a `str` to
`rv`, and `socket.send` raises `TypeError` on it; see the theorems for C3
and C10.) -/
theorem worker_loop_decode_failure_escapes (reg : String → Bool)
    (render : HtmlFormatterCfg → Grammar → String → Except String String)
    (w : ServerWorker) :
    workerLoopBody reg render w [255] [104, 105] = Except.error PyExc.unicodeDecodeError := rfl

/-- Witness for C2's theorem at concrete parameters. -/
theorem worker_loop_decode_failure_escapes_witness :
    workerLoopBody (fun _ => false) modelHighlight serverWorkerInit [255] [104, 105] =
      Except.error PyExc.unicodeDecodeError :=
  worker_loop_decode_failure_escapes (fun _ => false) modelHighlight serverWorkerInit

/-- C3: on a renderer-level `ValueError` the worker does build the
descriptive payload `"Pygments Error: <details>"` (line 151), exactly as
the claim says — but that payload is a `str`, and `socket.send` on line 153
raises `TypeError` on non-bytes data, so the error reply is never sent as
ordinary content and the worker's loop terminates instead of serving the
next request. The first conjunct shows the payload the code constructs; the
second shows the send raising. -/
theorem renderer_failure_reply_never_sent (reg : String → Bool) (detail code : String) :
    rvAt reg (renderFailing detail) serverWorkerInit "toml" code =
      RV.str (pygmentsErrorMsg detail) ∧
    handleDecoded reg (renderFailing detail) serverWorkerInit "toml" code =
      Except.error PyExc.typeError := by
  have h := resolveLexer_toml reg
  constructor
  · rw [rvAt, h]
    rfl
  · rw [handleDecoded, rvAt, h]
    rfl

/-- Witness for C3's theorem at concrete parameters. -/
theorem renderer_failure_reply_never_sent_witness :
    rvAt (fun _ => false) (renderFailing "Non-bytes data") serverWorkerInit "toml" "x" =
      RV.str (pygmentsErrorMsg "Non-bytes data") ∧
    handleDecoded (fun _ => false) (renderFailing "Non-bytes data") serverWorkerInit "toml" "x" =
      Except.error PyExc.typeError :=
  renderer_failure_reply_never_sent (fun _ => false) "Non-bytes data" "x"

/-- C4: grammar resolution is total — whenever the registry carries the
`text` grammar (it always does in pygments), resolution yields a grammar
handle for every language name; and when neither the override table nor the
registry matches the name, the result is exactly the registry's generic
plain-text grammar. -/
theorem resolve_total_with_fallback (reg : String → Bool) (lang : String)
    (htext : reg "text" = true) :
    (∃ g, resolveLexer reg lang = some g) ∧
    (lang ≠ "gdb" → lang ≠ "toml" → reg lang = false →
      resolveLexer reg lang = some (Grammar.registry "text")) := by
  constructor
  · by_cases h1 : lang = "gdb"
    · exact ⟨Grammar.gdbOverride, by rw [h1]; exact resolveLexer_gdb reg⟩
    · by_cases h2 : lang = "toml"
      · exact ⟨Grammar.tomlOverride, by rw [h2]; exact resolveLexer_toml reg⟩
      · by_cases h3 : reg lang = true
        · exact ⟨Grammar.registry lang, by simp [resolveLexer, getLexerByName, h1, h2, h3]⟩
        · simp only [Bool.not_eq_true] at h3
          exact ⟨Grammar.registry "text", resolveLexer_unknown reg lang h1 h2 h3 htext⟩
  · intro h1 h2 h3
    exact resolveLexer_unknown reg lang h1 h2 h3 htext

/-- Witness for C4's theorem: a registry carrying only `text`, queried for
an arbitrary name. -/
theorem resolve_total_with_fallback_witness :
    (∃ g, resolveLexer (fun s => s == "text") "not-a-real-language" = some g) ∧
    ("not-a-real-language" ≠ "gdb" → "not-a-real-language" ≠ "toml" →
      (fun s => s == "text") "not-a-real-language" = false →
      resolveLexer (fun s => s == "text") "not-a-real-language" =
        some (Grammar.registry "text")) :=
  resolve_total_with_fallback (fun s => s == "text") "not-a-real-language" (by decide)

/-- C5: the override table shadows the registry — `gdb` and `toml` select
the override grammars for every registry content, the overrides are not
registry grammars, and the match is exact and case-sensitive: names
differing only in case never select an override grammar. -/
theorem override_priority_case_sensitive (reg : String → Bool) :
    resolveLexer reg "gdb" = some Grammar.gdbOverride ∧
    resolveLexer reg "toml" = some Grammar.tomlOverride ∧
    Grammar.gdbOverride ≠ Grammar.registry "gdb" ∧
    Grammar.tomlOverride ≠ Grammar.registry "toml" ∧
    (∀ g, resolveLexer reg "GDB" = some g → g ≠ Grammar.gdbOverride) ∧
    (∀ g, resolveLexer reg "TOML" = some g → g ≠ Grammar.tomlOverride) ∧
    (∀ g, resolveLexer reg "Toml" = some g → g ≠ Grammar.tomlOverride) := by
  refine ⟨resolveLexer_gdb reg, resolveLexer_toml reg, by simp, by simp, ?_, ?_, ?_⟩
  all_goals
    intro g h
    rcases resolveLexer_registry_shape reg _ (by decide) (by decide) g h with ⟨nm, rfl⟩
    simp

/-- Witness for C5's theorem at a concrete registry. -/
theorem override_priority_case_sensitive_witness :
    resolveLexer (fun _ => true) "gdb" = some Grammar.gdbOverride ∧
    resolveLexer (fun _ => true) "toml" = some Grammar.tomlOverride ∧
    Grammar.gdbOverride ≠ Grammar.registry "gdb" ∧
    Grammar.tomlOverride ≠ Grammar.registry "toml" ∧
    (∀ g, resolveLexer (fun _ => true) "GDB" = some g → g ≠ Grammar.gdbOverride) ∧
    (∀ g, resolveLexer (fun _ => true) "TOML" = some g → g ≠ Grammar.tomlOverride) ∧
    (∀ g, resolveLexer (fun _ => true) "Toml" = some g → g ≠ Grammar.tomlOverride) :=
  override_priority_case_sensitive (fun _ => true)

/-- A language the registry carries (and that is not an override name)
resolves to that registry grammar. -/
theorem resolveLexer_hit (reg : String → Bool) (lang : String)
    (h1 : lang ≠ "gdb") (h2 : lang ≠ "toml") (h3 : reg lang = true) :
    resolveLexer reg lang = some (Grammar.registry lang) := by
  simp [resolveLexer, getLexerByName, h1, h2, h3]

/-- C6: for a language unknown to both the override table and the registry,
resolution yields the registry's plain-text grammar, so rendering any
source text behaves exactly as rendering it under the language name `text`
does — for every renderer and worker. With the concrete renderer model the
reply is the success-path markup of the plain-text grammar: non-empty, and
not an error payload (the engine-error branch produces `RV.str` values, and
the reply is none of them). -/
theorem unknown_language_plain_text_refinement (reg : String → Bool) (L S : String)
    (h1 : L ≠ "gdb") (h2 : L ≠ "toml") (h3 : reg L = false)
    (htext : reg "text" = true) :
    resolveLexer reg L = some (Grammar.registry "text") ∧
    (∀ render w, rvAt reg render w L S = rvAt reg render w "text" S) ∧
    rvAt reg modelHighlight serverWorkerInit L S = RV.bytes (plainTextMarkup S) ∧
    plainTextMarkup S ≠ "" ∧
    (∀ e, rvAt reg modelHighlight serverWorkerInit L S ≠ RV.str e) := by
  have hL : resolveLexer reg L = some (Grammar.registry "text") :=
    resolveLexer_unknown reg L h1 h2 h3 htext
  have hT : resolveLexer reg "text" = some (Grammar.registry "text") :=
    resolveLexer_hit reg "text" (by decide) (by decide) htext
  have hbytes : rvAt reg modelHighlight serverWorkerInit L S = RV.bytes (plainTextMarkup S) := by
    rw [rvAt, hL]
    rfl
  refine ⟨hL, ?_, hbytes, plainTextMarkup_ne_empty S, ?_⟩
  · intro render w
    rw [rvAt, hL, rvAt, hT]
  · intro e
    rw [hbytes]
    simp

/-- Witness for C6's theorem: the spec's own scenario, a registry carrying
only `text` queried for `not-a-real-language` on source text `hello`. -/
theorem unknown_language_plain_text_refinement_witness :
    resolveLexer (fun s => s == "text") "not-a-real-language" =
      some (Grammar.registry "text") ∧
    (∀ render w, rvAt (fun s => s == "text") render w "not-a-real-language" "hello" =
      rvAt (fun s => s == "text") render w "text" "hello") ∧
    rvAt (fun s => s == "text") modelHighlight serverWorkerInit "not-a-real-language" "hello" =
      RV.bytes (plainTextMarkup "hello") ∧
    plainTextMarkup "hello" ≠ "" ∧
    (∀ e, rvAt (fun s => s == "text") modelHighlight serverWorkerInit
      "not-a-real-language" "hello" ≠ RV.str e) :=
  unknown_language_plain_text_refinement (fun s => s == "text") "not-a-real-language"
    "hello" (by decide) (by decide) (by decide) (by decide)

/-- C7: for every configuration value `size`, the startup sequence of
`ServerTask.run` spawns `size + 1` workers (the `range(self.size + 1)` loop
of lines 110-113), all of them before the relay starts: the proxy event is
the last action and every spawn precedes it. -/
theorem spawn_count_off_by_one (size : Nat) :
    ∃ pre, serverTaskRun size = pre ++ [ServerEvent.startProxy] ∧
      pre.countP isSpawn = size + 1 ∧
      ∀ e ∈ pre, e ≠ ServerEvent.startProxy := by
  refine ⟨[ServerEvent.bindFrontend, ServerEvent.bindBackend] ++
      (List.range (size + 1)).map ServerEvent.spawnWorker, ?_, ?_, ?_⟩
  · simp [serverTaskRun]
  · simp [List.countP_append, List.countP_map, Function.comp_def, isSpawn,
      List.countP_true, List.countP_cons]
  · intro e he
    rcases List.mem_append.mp he with hl | hr
    · simp only [List.mem_cons, List.not_mem_nil, or_false] at hl
      rcases hl with rfl | rfl <;> simp
    · rcases List.mem_map.mp hr with ⟨i, _, rfl⟩
      simp

/-- Witness for C7's theorem at the configuration value `4` used by
`main()`: five workers are spawned. -/
theorem spawn_count_off_by_one_witness :
    ∃ pre, serverTaskRun 4 = pre ++ [ServerEvent.startProxy] ∧
      pre.countP isSpawn = 4 + 1 ∧
      ∀ e ∈ pre, e ≠ ServerEvent.startProxy :=
  spawn_count_off_by_one 4

/-- C8: the request handler is deterministic — any two workers constructed
by `ServerWorker.__init__` (whose formatter state is fixed at construction
and never mutated) produce identical reply values for identical
`(language, sourceText)` inputs, whatever the registry and renderer. -/
theorem handler_deterministic (reg : String → Bool)
    (render : HtmlFormatterCfg → Grammar → String → Except String String)
    (lang code : String) (w1 w2 : ServerWorker)
    (hw1 : w1 = serverWorkerInit) (hw2 : w2 = serverWorkerInit) :
    rvAt reg render w1 lang code = rvAt reg render w2 lang code := by
  rw [hw1, hw2]

/-- Witness for C8's theorem at concrete parameters. -/
theorem handler_deterministic_witness :
    rvAt (fun _ => false) modelHighlight serverWorkerInit "toml" "key = \"value\"" =
      rvAt (fun _ => false) modelHighlight serverWorkerInit "toml" "key = \"value\"" :=
  handler_deterministic (fun _ => false) modelHighlight "toml" "key = \"value\""
    serverWorkerInit serverWorkerInit rfl rfl

/-- The spec's TOML scenario input. -/
def tomlSample : String := "key = \"value\""

/-- The markup the worker produces for the TOML scenario input. -/
def tomlSampleMarkup : String :=
  "<span class=\"n\">key</span> <span class=\"o\">=</span> <span class=\"s\">&quot;value&quot;</span>\n"

/-- C9: on `language="toml"`, `sourceText='key = "value"'` the custom TOML
grammar tokenizes `key` as a `Name` token, `=` as an `Operator` token and
the double-quoted text as a `String` token, and the reply markup contains
the name-token span around `key`, the operator-token span around `=` and
the string-token span around the (escaped) quoted value. -/
theorem toml_scenario_tokens (reg : String → Bool) :
    tomlLex (lexPreprocess tomlSample) =
      [(Tok.name, "key"), (Tok.text, " "), (Tok.operator, "="), (Tok.text, " "),
       (Tok.string, "\"value\""), (Tok.text, "\n")] ∧
    rvAt reg modelHighlight serverWorkerInit "toml" tomlSample =
      RV.bytes tomlSampleMarkup ∧
    occursIn (spanWrap "n" "key") tomlSampleMarkup = true ∧
    occursIn (spanWrap "o" "=") tomlSampleMarkup = true ∧
    occursIn (spanWrap "s" (htmlEscape "\"value\"")) tomlSampleMarkup = true := by
  refine ⟨by decide, ?_, by decide, by decide, by decide⟩
  rw [rvAt, resolveLexer_toml reg]
  show RV.bytes (htmlFormat (tomlLex (lexPreprocess tomlSample))) = RV.bytes tomlSampleMarkup
  congr 1

/-- Witness for C9's theorem at a concrete registry. -/
theorem toml_scenario_tokens_witness :
    tomlLex (lexPreprocess tomlSample) =
      [(Tok.name, "key"), (Tok.text, " "), (Tok.operator, "="), (Tok.text, " "),
       (Tok.string, "\"value\""), (Tok.text, "\n")] ∧
    rvAt (fun _ => false) modelHighlight serverWorkerInit "toml" tomlSample =
      RV.bytes tomlSampleMarkup ∧
    occursIn (spanWrap "n" "key") tomlSampleMarkup = true ∧
    occursIn (spanWrap "o" "=") tomlSampleMarkup = true ∧
    occursIn (spanWrap "s" (htmlEscape "\"value\"")) tomlSampleMarkup = true :=
  toml_scenario_tokens (fun _ => false)

/-- C10: whenever resolution yields a lexer, the value bound to `rv` at the
send site is `bytes` (the encoded markup) on render success and a bare
`str` (the error text) on a render `ValueError` — and the two constructors
are disjoint, so the success-path and error-path replies are not values of
one common payload type at the send operation. -/
theorem reply_payload_type_split (reg : String → Bool)
    (render : HtmlFormatterCfg → Grammar → String → Except String String)
    (w : ServerWorker) (lang code : String) (lex : Grammar)
    (hres : resolveLexer reg lang = some lex) :
    ((∃ m, render w.formatter lex code = Except.ok m ∧
        rvAt reg render w lang code = RV.bytes m) ∨
     (∃ e, render w.formatter lex code = Except.error e ∧
        rvAt reg render w lang code = RV.str (pygmentsErrorMsg e))) ∧
    (∀ a b, RV.bytes a ≠ RV.str b) := by
  constructor
  · have hv : rvAt reg render w lang code =
        (match render w.formatter lex code with
         | Except.ok markup => RV.bytes markup
         | Except.error err => RV.str (pygmentsErrorMsg err)) := by
      rw [rvAt, hres]
    cases h : render w.formatter lex code with
    | ok m =>
      rw [h] at hv
      exact Or.inl ⟨m, rfl, hv⟩
    | error e =>
      rw [h] at hv
      exact Or.inr ⟨e, rfl, hv⟩
  · intro a b
    simp

/-- Witness for C10's theorem at concrete parameters. -/
theorem reply_payload_type_split_witness :
    ((∃ m, modelHighlight serverWorkerInit.formatter Grammar.tomlOverride "x" = Except.ok m ∧
        rvAt (fun _ => false) modelHighlight serverWorkerInit "toml" "x" = RV.bytes m) ∨
     (∃ e, modelHighlight serverWorkerInit.formatter Grammar.tomlOverride "x" = Except.error e ∧
        rvAt (fun _ => false) modelHighlight serverWorkerInit "toml" "x" =
          RV.str (pygmentsErrorMsg e))) ∧
    (∀ a b, RV.bytes a ≠ RV.str b) :=
  reply_payload_type_split (fun _ => false) modelHighlight serverWorkerInit "toml" "x"
    Grammar.tomlOverride (by simp [resolveLexer])

/-! ## The broker relay (claim C1)

The relay itself is `zmq.proxy` over the ROUTER/DEALER/REP sockets wired in
`ServerTask.run` — external library code. Modelled from the spec: the
Broker records a correlation token per arriving request, the Dispatch
Channel hands each queued request to exactly one idle worker, the worker
computes the reply for exactly the request it holds and sends it back under
the request's own token untouched, and the Broker routes each reply to the
client named by its token. States and steps below form that transition
system, closed under arbitrary interleaving; the no-cross-talk property is
an invariant of every reachable state.
-/

/-- A request message in the dispatch channel: the originating client's
correlation token plus the request body. -/
structure ReqMsg where
  token : Nat
  lang : String
  code : String
  deriving DecidableEq

/-- A reply message travelling back: the untouched correlation token plus
the reply payload. -/
structure RepMsg where
  token : Nat
  payload : RV
  deriving DecidableEq

/-- Global state of the broker system: clients that have not yet been
accepted, requests queued in the dispatch channel, requests held by busy
workers (tagged with the worker id), replies waiting to be routed, and
replies delivered to clients. -/
structure BrokerState where
  pending : List Nat
  channel : List ReqMsg
  working : List (Nat × ReqMsg)
  replies : List RepMsg
  delivered : List (Nat × RV)
  deriving DecidableEq

/-- The envelope the broker builds for client `c`: correlation token `c`
wrapped around `c`'s own request. -/
def mkReq (reqOf : Nat → String × String) (c : Nat) : ReqMsg :=
  ⟨c, (reqOf c).1, (reqOf c).2⟩

/-- One step of the broker system. `reqOf` gives each client's request,
`handleFn` is the worker's request handler, `W` the pool size. -/
inductive BStep (reqOf : Nat → String × String) (handleFn : String → String → RV)
    (W : Nat) : BrokerState → BrokerState → Prop where
  | accept (c : Nat) (rest : List Nat) (s : BrokerState)
      (h : s.pending = c :: rest) :
      BStep reqOf handleFn W s
        ⟨rest, s.channel ++ [mkReq reqOf c], s.working, s.replies, s.delivered⟩
  | dispatch (m : ReqMsg) (rest : List ReqMsg) (wk : Nat) (s : BrokerState)
      (hch : s.channel = m :: rest) (hwk : wk < W)
      (hidle : wk ∉ s.working.map Prod.fst) :
      BStep reqOf handleFn W s
        ⟨s.pending, rest, (wk, m) :: s.working, s.replies, s.delivered⟩
  | reply (wk : Nat) (m : ReqMsg) (pre post : List (Nat × ReqMsg)) (s : BrokerState)
      (hwrk : s.working = pre ++ (wk, m) :: post) :
      BStep reqOf handleFn W s
        ⟨s.pending, s.channel, pre ++ post,
          s.replies ++ [⟨m.token, handleFn m.lang m.code⟩], s.delivered⟩
  | route (r : RepMsg) (rest : List RepMsg) (s : BrokerState)
      (hrep : s.replies = r :: rest) :
      BStep reqOf handleFn W s
        ⟨s.pending, s.channel, s.working, rest, (r.token, r.payload) :: s.delivered⟩

/-- Initial state: all clients pending, nothing in flight. -/
def initState (clients : List Nat) : BrokerState := ⟨clients, [], [], [], []⟩

/-- Reachable states of the broker system. -/
inductive Reach (reqOf : Nat → String × String) (handleFn : String → String → RV)
    (W : Nat) (clients : List Nat) : BrokerState → Prop where
  | init : Reach reqOf handleFn W clients (initState clients)
  | step {s t : BrokerState} (hs : Reach reqOf handleFn W clients s)
      (hstep : BStep reqOf handleFn W s t) : Reach reqOf handleFn W clients t

/-- A request message carries exactly its own client's request body. -/
def ReqGood (reqOf : Nat → String × String) (m : ReqMsg) : Prop :=
  m.lang = (reqOf m.token).1 ∧ m.code = (reqOf m.token).2

/-- A reply message carries the handler's output on its own client's
request. -/
def RepGood (reqOf : Nat → String × String) (handleFn : String → String → RV)
    (r : RepMsg) : Prop :=
  r.payload = handleFn (reqOf r.token).1 (reqOf r.token).2

/-- The routing invariant: every message anywhere in the system is tagged
consistently with its originating client. -/
def BrokerInv (reqOf : Nat → String × String) (handleFn : String → String → RV)
    (s : BrokerState) : Prop :=
  (∀ m ∈ s.channel, ReqGood reqOf m) ∧
  (∀ p ∈ s.working, ReqGood reqOf p.2) ∧
  (∀ r ∈ s.replies, RepGood reqOf handleFn r) ∧
  (∀ q ∈ s.delivered, q.2 = handleFn (reqOf q.1).1 (reqOf q.1).2)

/-- Every step preserves the routing invariant. -/
theorem brokerInv_step (reqOf : Nat → String × String) (handleFn : String → String → RV)
    (W : Nat) {s t : BrokerState} (hstep : BStep reqOf handleFn W s t)
    (hinv : BrokerInv reqOf handleFn s) : BrokerInv reqOf handleFn t := by
  obtain ⟨hc, hw, hr, hd⟩ := hinv
  cases hstep with
  | accept c rest s h =>
    refine ⟨?_, hw, hr, hd⟩
    intro m hm
    rcases List.mem_append.mp hm with h1 | h1
    · exact hc m h1
    · simp only [List.mem_singleton] at h1
      subst h1
      exact ⟨rfl, rfl⟩
  | dispatch m rest wk s hch hwk hidle =>
    refine ⟨?_, ?_, hr, hd⟩
    · intro m2 hm2
      exact hc m2 (by rw [hch]; exact List.mem_cons_of_mem _ hm2)
    · intro p hp
      rcases List.mem_cons.mp hp with rfl | hp2
      · exact hc m (by rw [hch]; exact List.mem_cons_self _ _)
      · exact hw p hp2
  | reply wk m pre post s hwrk =>
    have hm : ReqGood reqOf m :=
      hw (wk, m) (by rw [hwrk]; exact List.mem_append.mpr (Or.inr (List.mem_cons_self _ _)))
    refine ⟨hc, ?_, ?_, hd⟩
    · intro p hp
      apply hw
      rw [hwrk]
      rcases List.mem_append.mp hp with h1 | h1
      · exact List.mem_append.mpr (Or.inl h1)
      · exact List.mem_append.mpr (Or.inr (List.mem_cons_of_mem _ h1))
    · intro r hr2
      rcases List.mem_append.mp hr2 with h1 | h1
      · exact hr r h1
      · simp only [List.mem_singleton] at h1
        subst h1
        show handleFn m.lang m.code = handleFn (reqOf m.token).1 (reqOf m.token).2
        rw [hm.1, hm.2]
  | route r rest s hrep =>
    refine ⟨hc, hw, ?_, ?_⟩
    · intro r2 h2
      exact hr r2 (by rw [hrep]; exact List.mem_cons_of_mem _ h2)
    · intro q hq
      rcases List.mem_cons.mp hq with rfl | hq2
      · exact hr r (by rw [hrep]; exact List.mem_cons_self _ _)
      · exact hd q hq2

/-- Every reachable state satisfies the routing invariant. -/
theorem brokerInv_reach (reqOf : Nat → String × String) (handleFn : String → String → RV)
    (W : Nat) (clients : List Nat) {s : BrokerState}
    (h : Reach reqOf handleFn W clients s) : BrokerInv reqOf handleFn s := by
  induction h with
  | init =>
    refine ⟨?_, ?_, ?_, ?_⟩ <;> intro x hx <;> exact absurd hx (List.not_mem_nil x)
  | step hs hstep ih => exact brokerInv_step reqOf handleFn W hstep ih

/-- The multiset of correlation tokens present anywhere in the system. -/
def tokensOf (s : BrokerState) : Multiset Nat :=
  (↑s.pending + ↑(s.channel.map ReqMsg.token) + ↑(s.working.map (fun p => p.2.token)) +
    ↑(s.replies.map RepMsg.token) + ↑(s.delivered.map Prod.fst) : Multiset Nat)

/-- Steps neither create nor destroy correlation tokens. -/
theorem tokensOf_step (reqOf : Nat → String × String) (handleFn : String → String → RV)
    (W : Nat) {s t : BrokerState} (hstep : BStep reqOf handleFn W s t) :
    tokensOf t = tokensOf s := by
  cases hstep with
  | accept c rest s h =>
    simp only [tokensOf, h, mkReq, List.map_append, List.map_cons, List.map_nil,
      ← Multiset.coe_add, ← Multiset.cons_coe, Multiset.coe_singleton,
      ← Multiset.singleton_add]
    ac_rfl
  | dispatch m rest wk s hch hwk hidle =>
    simp only [tokensOf, hch, List.map_cons, ← Multiset.coe_add, ← Multiset.cons_coe,
      ← Multiset.singleton_add]
    ac_rfl
  | reply wk m pre post s hwrk =>
    simp only [tokensOf, hwrk, List.map_append, List.map_cons, List.map_nil,
      ← Multiset.coe_add, ← Multiset.cons_coe, ← Multiset.singleton_add]
    ac_rfl
  | route r rest s hrep =>
    simp only [tokensOf, hrep, List.map_cons, ← Multiset.coe_add, ← Multiset.cons_coe,
      ← Multiset.singleton_add]
    ac_rfl

/-- In every reachable state the tokens in the system are exactly the
clients (as a multiset): no token is duplicated, dropped or invented. -/
theorem tokensOf_reach (reqOf : Nat → String × String) (handleFn : String → String → RV)
    (W : Nat) (clients : List Nat) {s : BrokerState}
    (h : Reach reqOf handleFn W clients s) : tokensOf s = ↑clients := by
  induction h with
  | init => simp [tokensOf, initState]
  | step hs hstep ih => rw [tokensOf_step reqOf handleFn W hstep, ih]

/-- C1: no cross-talk. Modelled from the spec: the broker relay is the
external `zmq.proxy` primitive, so its routing contract (correlation token
recorded per request, exactly one worker per request, token returned
untouched) is embedded as the transition system above. In every state
reachable by any interleaving, for any number of clients and any pool size,
every reply delivered to a client is exactly the handler's output on that
client's own request — replies are never merged or swapped across distinct
in-flight requests — and (for distinct clients) no client is ever delivered
two replies. -/
theorem broker_no_cross_talk (reqOf : Nat → String × String)
    (handleFn : String → String → RV) (W : Nat) (clients : List Nat)
    (s : BrokerState) (hreach : Reach reqOf handleFn W clients s) :
    (∀ c p, (c, p) ∈ s.delivered → p = handleFn (reqOf c).1 (reqOf c).2) ∧
    (clients.Nodup → (s.delivered.map Prod.fst).Nodup) := by
  constructor
  · intro c p hcp
    exact (brokerInv_reach reqOf handleFn W clients hreach).2.2.2 (c, p) hcp
  · intro hnd
    have htok := tokensOf_reach reqOf handleFn W clients hreach
    have hle : (↑(s.delivered.map Prod.fst) : Multiset Nat) ≤ tokensOf s := by
      unfold tokensOf
      exact le_add_self
    rw [htok] at hle
    have hnodup : (↑(s.delivered.map Prod.fst) : Multiset Nat).Nodup :=
      Multiset.nodup_of_le hle (Multiset.coe_nodup.mpr hnd)
    exact Multiset.coe_nodup.mp hnodup

/-- Requests of the two demonstration clients. -/
def demoReq : Nat → String × String :=
  fun c => if c = 0 then ("toml", "a") else ("text", "b")

/-- The demonstration handler: the worker's own reply function on a
registry carrying `text`. -/
def demoHandle : String → String → RV :=
  fun lang code => rvAt (fun s => s == "text") modelHighlight serverWorkerInit lang code

/-- Final state of a concrete two-client, one-worker run. -/
def demoFinal : BrokerState :=
  ⟨[], [], [], [],
    [(1, demoHandle (demoReq 1).1 (demoReq 1).2), (0, demoHandle (demoReq 0).1 (demoReq 0).2)]⟩

/-- Witness for C1's theorem: an explicit complete run with two clients and
one worker, to which the theorem applies. -/
theorem broker_no_cross_talk_witness :
    (∀ c p, (c, p) ∈ demoFinal.delivered → p = demoHandle (demoReq c).1 (demoReq c).2) ∧
    ([0, 1].Nodup → (demoFinal.delivered.map Prod.fst).Nodup) := by
  have h0 : Reach demoReq demoHandle 1 [0, 1] (initState [0, 1]) := Reach.init
  have h1 : Reach demoReq demoHandle 1 [0, 1]
      ⟨[1], [mkReq demoReq 0], [], [], []⟩ :=
    h0.step (BStep.accept 0 [1] _ rfl)
  have h2 : Reach demoReq demoHandle 1 [0, 1]
      ⟨[], [mkReq demoReq 0, mkReq demoReq 1], [], [], []⟩ :=
    h1.step (BStep.accept 1 [] _ rfl)
  have h3 : Reach demoReq demoHandle 1 [0, 1]
      ⟨[], [mkReq demoReq 1], [(0, mkReq demoReq 0)], [], []⟩ :=
    h2.step (BStep.dispatch (mkReq demoReq 0) [mkReq demoReq 1] 0 _ rfl (by decide) (by simp))
  have h4 : Reach demoReq demoHandle 1 [0, 1]
      ⟨[], [mkReq demoReq 1], [],
        [⟨(mkReq demoReq 0).token, demoHandle (mkReq demoReq 0).lang (mkReq demoReq 0).code⟩],
        []⟩ :=
    h3.step (BStep.reply 0 (mkReq demoReq 0) [] [] _ rfl)
  have h5 : Reach demoReq demoHandle 1 [0, 1]
      ⟨[], [mkReq demoReq 1], [], [],
        [((mkReq demoReq 0).token, demoHandle (mkReq demoReq 0).lang (mkReq demoReq 0).code)]⟩ :=
    h4.step (BStep.route _ [] _ rfl)
  have h6 : Reach demoReq demoHandle 1 [0, 1]
      ⟨[], [], [(0, mkReq demoReq 1)], [],
        [((mkReq demoReq 0).token, demoHandle (mkReq demoReq 0).lang (mkReq demoReq 0).code)]⟩ :=
    h5.step (BStep.dispatch (mkReq demoReq 1) [] 0 _ rfl (by decide) (by simp))
  have h7 : Reach demoReq demoHandle 1 [0, 1]
      ⟨[], [], [],
        [⟨(mkReq demoReq 1).token, demoHandle (mkReq demoReq 1).lang (mkReq demoReq 1).code⟩],
        [((mkReq demoReq 0).token, demoHandle (mkReq demoReq 0).lang (mkReq demoReq 0).code)]⟩ :=
    h6.step (BStep.reply 0 (mkReq demoReq 1) [] [] _ rfl)
  have h8 : Reach demoReq demoHandle 1 [0, 1]
      ⟨[], [], [], [],
        [((mkReq demoReq 1).token, demoHandle (mkReq demoReq 1).lang (mkReq demoReq 1).code),
         ((mkReq demoReq 0).token, demoHandle (mkReq demoReq 0).lang (mkReq demoReq 0).code)]⟩ :=
    h7.step (BStep.route _ [] _ rfl)
  exact broker_no_cross_talk demoReq demoHandle 1 [0, 1] demoFinal h8
